import Mathlib

/-!
# Download orchestration of `frontend/src/App.js`

A shallow embedding of the two asynchronous handlers of the `App` component,
`getVideoInfo` (lines 16-37) and `downloadVideo` (lines 39-153).

* The React state is the record `AppState`; a handler reads the values captured by
  its closure (`url`, `downloadType`) and produces, in program order, the list of
  calls it makes (`Effect`): state setters and calls into the browser.
* What the environment answers (how `axios.post`, `fetch`, `response.json()`,
  `response.blob()` settle, whether a DOM call throws) is an explicit argument.
* The state after a handler is the state obtained by applying its setter calls in order.
-/

namespace App

/-! ## The regular expression `/filename="([^"]+)"/` -/

/-- The literal text `filename="` that opens the pattern. -/
def filenameKey : List Char := "filename=\"".toList

/-- Match a literal at the head of the input; the result is the input left over. -/
def matchLiteral : List Char → List Char → Option (List Char)
  | [], s => some s
  | _ :: _, [] => none
  | c :: cs, d :: s => if c = d then matchLiteral cs s else none

/-- The tail of the group followed by the closing quote, `[^"]*"`, by backtracking:
the greedy alternative (consume one more character of the class) is tried first, and
only when the rest of the pattern fails after it the closing quote is tried here.
The result is the text consumed by the class. -/
def matchStarThenQuote : List Char → Option (List Char)
  | [] => none
  | c :: t =>
    match (if c ≠ '"' then matchStarThenQuote t else none) with
    | some x => some (c :: x)
    | none => if c = '"' then some [] else none

/-- The capture group followed by the closing quote, `([^"]+)"`: one character of the
class, then `matchStarThenQuote`. The result is the captured text. -/
def matchGroupThenQuote : List Char → Option (List Char)
  | [] => none
  | c :: t =>
    if c ≠ '"' then
      match matchStarThenQuote t with
      | some x => some (c :: x)
      | none => none
    else none

/-- An attempt to match the whole pattern at the head of the input. -/
def matchHere (s : List Char) : Option (List Char) :=
  match matchLiteral filenameKey s with
  | some rest => matchGroupThenQuote rest
  | none => none

/-- The capture `matches[1]` of `/filename="([^"]+)"/.exec(s)`: the pattern is tried at
each position from the left, and the first position where it matches wins; `none` is
the `null` result. -/
def regexExec : List Char → Option (List Char)
  | [] => matchHere []
  | c :: t =>
    match matchHere (c :: t) with
    | some x => some x
    | none => regexExec t

/-- The variable `filename` of `downloadVideo` (lines 73-80 and 118-125) after the
header has been inspected: `fallback` is the literal it is initialised with,
`contentDisposition` the value of `response.headers.get('Content-Disposition')`
(`none` for `null`). An empty string is falsy, both as header and as capture. -/
def filename (fallback : String) (contentDisposition : Option String) : String :=
  match contentDisposition with
  | none => fallback
  | some h =>
    if h ≠ "" then
      match regexExec h.toList with
      | some m1 => if m1 ≠ [] then String.mk m1 else fallback
      | none => fallback
    else fallback

/-- The literal `filename` starts from: line 74 in the playlist branch, line 119 in the
other branch. -/
def defaultFilename (downloadType : String) : String :=
  if downloadType = "playlist" then "playlist.zip" else "video.mp4"

/-! ## State, environment and effects -/

/-- The document stored by `setVideoInfo(response.data)`, with the members the
component reads from it (lines 236-256). -/
structure VideoInfo where
  type : String
  title : String
  uploader : String
  thumbnail : Option String
  video_count : Option Nat
  deriving DecidableEq, Repr

/-- The seven `useState` cells of `App` (lines 8-14). -/
structure AppState where
  url : String
  loading : Bool
  videoInfo : Option VideoInfo
  message : String
  error : String
  downloadedFile : String
  downloadType : String
  deriving DecidableEq, Repr

/-- The initial values passed to `useState` (lines 8-14). -/
def AppState.initial : AppState :=
  { url := "", loading := false, videoInfo := none, message := "", error := "",
    downloadedFile := "", downloadType := "single" }

/-- A thrown JavaScript error, as far as the handlers look at it: `err.name` and
`err.message`. -/
structure JsError where
  name : String
  message : String
  deriving DecidableEq, Repr

/-- A `Blob`: the bytes it holds. -/
structure Blob where
  bytes : List UInt8
  deriving DecidableEq, Repr

/-- The anchor element built on lines 87-89 and 132-134: `href` is the object URL,
identified with the blob it designates (`none` before the assignment), `download` the
suggested file name. -/
structure Anchor where
  href : Option Blob
  download : String
  deriving DecidableEq, Repr

/-- How `axios.post` settles in `getVideoInfo`: it resolves with `response.data`, or
rejects with an `err` whose `err.response?.data?.error` is the given value (`none` when
any link of the chain is missing; per the API the member is a string). -/
inductive AxiosOutcome where
  | resolves (data : VideoInfo)
  | rejects (responseDataError : Option String)
  deriving DecidableEq, Repr

/-- How `response.json()` settles on the error path, and what `errorData.error` then
evaluates to: the promise rejects (the body is not JSON, or cannot be read); the body
is `null`, so that reading the member throws a `TypeError` with an engine-specific
text; or the body is a document whose `error` member is the given string (`none` when
it has no such member). -/
inductive JsonOutcome where
  | rejects (err : JsError)
  | null (typeErrorText : String)
  | document (error : Option String)
  deriving DecidableEq, Repr

/-- The `Response` a resolved `fetch` hands over: `response.ok`, the value of
`response.headers.get('Content-Disposition')`, the body bytes, how `response.json()`
settles, and the error `response.blob()` rejects with when the body cannot be read
(`none`: it resolves with a blob of the whole body). -/
structure Response where
  ok : Bool
  contentDisposition : Option String
  body : List UInt8
  json : JsonOutcome
  blobFailure : Option JsError
  deriving DecidableEq, Repr

/-- How `fetch` settles: it rejects (with an `AbortError` when the controller aborted
it, with a `TypeError` on a network failure), or resolves with a response. -/
inductive FetchOutcome where
  | rejects (err : JsError)
  | resolves (response : Response)
  deriving DecidableEq, Repr

/-- The environment of one `downloadVideo` call: how `fetch` settles and, when a call
into the DOM throws while the file is saved, the index of that call among the six
calls of lines 86-93 (or 131-138) together with the error. -/
structure DownloadEnv where
  fetch : FetchOutcome
  domThrow : Option (Nat × JsError)
  deriving DecidableEq, Repr

/-- The calls a handler makes, in program order: the state setters and the calls that
leave the component. -/
inductive Effect where
  | setLoading (v : Bool)
  | setError (v : String)
  | setMessage (v : String)
  | setVideoInfo (v : Option VideoInfo)
  | setDownloadedFile (v : String)
  | axiosPost (path : String) (url : String) (type : String)
  | setTimeout (ms : Nat)
  | fetch (path : String) (url : String) (type : Option String)
  | clearTimeout
  | responseJson
  | headersGet (name : String)
  | responseBlob
  | createObjectURL (blob : Blob)
  | createElement (tag : String)
  | appendChild (a : Anchor)
  | click (a : Anchor)
  | removeChild (a : Anchor)
  | revokeObjectURL (blob : Blob)
  deriving DecidableEq, Repr

/-- The state after one call: a setter replaces its cell, every other call leaves the
state as it is. -/
def applyEffect (s : AppState) : Effect → AppState
  | .setLoading v => { s with loading := v }
  | .setError v => { s with error := v }
  | .setMessage v => { s with message := v }
  | .setVideoInfo v => { s with videoInfo := v }
  | .setDownloadedFile v => { s with downloadedFile := v }
  | _ => s

/-- The state after a list of calls, applied in order. -/
def applyEffects (s : AppState) (es : List Effect) : AppState :=
  es.foldl applyEffect s

/-- The JavaScript `a || b` on strings: the empty string is falsy. -/
def orElseString (a b : String) : String :=
  if a ≠ "" then a else b

/-- The JavaScript `a || b` where `a` may be `undefined`. -/
def orElseUndefined (a : Option String) (b : String) : String :=
  match a with
  | some v => orElseString v b
  | none => b

/-! ## `getVideoInfo` (lines 16-37) -/

/-- The calls of `getVideoInfo` for the captured `url` and `downloadType`. -/
def getVideoInfoEffects (url downloadType : String) (outcome : AxiosOutcome) :
    List Effect :=
  if url = "" then
    [.setError "Please enter a YouTube URL"]
  else
    [.setLoading true, .setError "", .setMessage "", .setVideoInfo none,
      .axiosPost "/info" url downloadType]
    ++ (match outcome with
        | .resolves data => [.setVideoInfo (some data), .setError ""]
        | .rejects e =>
          [.setError (orElseUndefined e "Failed to fetch video info"), .setVideoInfo none])
    ++ [.setLoading false]

/-- The state when `getVideoInfo` has terminated. -/
def getVideoInfo (s : AppState) (outcome : AxiosOutcome) : AppState :=
  applyEffects s (getVideoInfoEffects s.url s.downloadType outcome)

/-! ## `downloadVideo` (lines 39-153) -/

/-- The delay passed to `setTimeout`, in milliseconds: line 56 in the playlist branch,
line 101 in the other branch. -/
def timeoutMs (downloadType : String) : Nat :=
  if downloadType = "playlist" then 7200000 else 3600000

/-- The six DOM calls that save the file (lines 86-93, 132-138), with the anchor as it
is when each call is made. -/
def saveCalls (blob : Blob) (name : String) : List Effect :=
  let a : Anchor := { href := some blob, download := name }
  [.createObjectURL blob, .createElement "a", .appendChild a, .click a, .removeChild a,
    .revokeObjectURL blob]

/-- Run the DOM calls: when the environment makes call number `k` throw, the calls
before it are made and the error is thrown. -/
def runSave (calls : List Effect) (domThrow : Option (Nat × JsError)) :
    List Effect × Option JsError :=
  match domThrow with
  | none => (calls, none)
  | some (k, err) => if k < calls.length then (calls.take k, some err) else (calls, none)

/-- One branch of the `try` block from the timer on (lines 55-95 with the playlist
constants, lines 100-140 with the others): the calls made, and the error thrown if the
branch does not reach its end. -/
def transfer (path : String) (type : Option String) (ms : Nat)
    (errorFallback nameFallback successMessage url : String) (env : DownloadEnv) :
    List Effect × Option JsError :=
  let start : List Effect := [.setTimeout ms, .fetch path url type, .clearTimeout]
  match env.fetch with
  | .rejects err => (start, some err)
  | .resolves response =>
    if ¬ response.ok then
      match response.json with
      | .rejects err => (start ++ [.responseJson], some err)
      | .null text => (start ++ [.responseJson], some { name := "TypeError", message := text })
      | .document error =>
        (start ++ [.responseJson],
          some { name := "Error", message := orElseUndefined error errorFallback })
    else
      let name := filename nameFallback response.contentDisposition
      let read : List Effect := start ++ [.headersGet "Content-Disposition", .responseBlob]
      match response.blobFailure with
      | some err => (read, some err)
      | none =>
        match runSave (saveCalls { bytes := response.body } name) env.domThrow with
        | (calls, some err) => (read ++ calls, some err)
        | (calls, none) => (read ++ calls ++ [.setMessage successMessage], none)

/-- The `try` block (lines 50-142). -/
def tryBlock (url downloadType : String) (env : DownloadEnv) :
    List Effect × Option JsError :=
  let (calls, thrown) :=
    if downloadType = "playlist" then
      let r := transfer "/download-playlist" none 7200000 "Failed to download playlist"
        "playlist.zip" "Playlist downloaded successfully as ZIP file!" url env
      (Effect.setMessage "Downloading entire playlist... This may take a while." :: r.1, r.2)
    else
      let r := transfer "/download" (some "single") 3600000 "Failed to download video"
        "video.mp4" "Video downloaded to your device!" url env
      (Effect.setMessage
        "Downloading video... Please wait, this may take a while for very long videos (20+ hours)."
        :: r.1, r.2)
  match thrown with
  | none => (calls ++ [.setError ""], none)
  | some err => (calls, some err)

/-- The text shown when the controller aborted the request (line 145). -/
def timeoutMessage : String :=
  "Download timeout. The video may be too long or your connection is slow. Please try a shorter video."

/-- The `catch` block (lines 143-149). -/
def catchBlock (err : JsError) : List Effect :=
  [if err.name = "AbortError" then .setError timeoutMessage
    else .setError (orElseString err.message "Failed to download"),
   .setMessage ""]

/-- The calls of `downloadVideo` for the captured `url` and `downloadType`. -/
def downloadVideoEffects (url downloadType : String) (env : DownloadEnv) : List Effect :=
  if url = "" then
    [.setError "Please enter a YouTube URL"]
  else
    [.setLoading true, .setError "", .setMessage "", .setDownloadedFile ""]
    ++ (match tryBlock url downloadType env with
        | (calls, none) => calls
        | (calls, some err) => calls ++ catchBlock err)
    ++ [.setLoading false]

/-- The state when `downloadVideo` has terminated. -/
def downloadVideo (s : AppState) (env : DownloadEnv) : AppState :=
  applyEffects s (downloadVideoEffects s.url s.downloadType env)

/-- The user actions and completed handler calls that change the state: the two
`onChange` handlers (lines 181, 199, 214) and the two asynchronous handlers. -/
inductive Action where
  | setUrl (v : String)
  | setDownloadType (v : String)
  | getVideoInfo (outcome : AxiosOutcome)
  | downloadVideo (env : DownloadEnv)
  deriving DecidableEq, Repr

/-- The state after one action. -/
def step (s : AppState) : Action → AppState
  | .setUrl v => { s with url := v }
  | .setDownloadType v => { s with downloadType := v }
  | .getVideoInfo outcome => getVideoInfo s outcome
  | .downloadVideo env => downloadVideo s env

/-- The state after a sequence of actions from the initial state. -/
def run (actions : List Action) : AppState :=
  actions.foldl step AppState.initial

/-! ## Reading the specification: occurrences of `filename="X"` -/

/-- The text `h` splits as `pre`, then `filename="`, then `x`, then a double quote, then
`post`, where `x` is a non-empty run of characters other than the double quote. -/
def Occurrence (h pre x post : List Char) : Prop :=
  h = pre ++ filenameKey ++ x ++ '"' :: post ∧ x ≠ [] ∧ '"' ∉ x

/-- The occurrence at `pre` is the leftmost one of `h`: no occurrence starts earlier. -/
def Leftmost (h pre x post : List Char) : Prop :=
  Occurrence h pre x post ∧
    ∀ pre2 x2 post2, Occurrence h pre2 x2 post2 → pre.length ≤ pre2.length

/-- The values passed to `setTimeout` by a list of calls. -/
def armedTimeouts (es : List Effect) : List Nat :=
  es.filterMap fun e => match e with
    | .setTimeout ms => some ms
    | _ => none

/-- The anchors clicked by a list of calls. -/
def clickedAnchors (es : List Effect) : List Anchor :=
  es.filterMap fun e => match e with
    | .click a => some a
    | _ => none

/-- A call that leaves the component for the network. -/
def Effect.isNetwork : Effect → Bool
  | .axiosPost _ _ _ => true
  | .fetch _ _ _ => true
  | _ => false

/-- A call of `setLoading`. -/
def Effect.isSetLoading : Effect → Bool
  | .setLoading _ => true
  | _ => false

/-- A call that belongs to the file-save step: creating the anchor or clicking it. -/
def Effect.isSave : Effect → Bool
  | .createElement _ => true
  | .click _ => true
  | _ => false

/-! ## Derived descriptions of a `downloadVideo` run, and sample inputs -/

/-- The branch of the `try` block that `downloadType` selects. -/
def branch (url downloadType : String) (env : DownloadEnv) : List Effect × Option JsError :=
  if downloadType = "playlist" then
    transfer "/download-playlist" none 7200000 "Failed to download playlist"
      "playlist.zip" "Playlist downloaded successfully as ZIP file!" url env
  else
    transfer "/download" (some "single") 3600000 "Failed to download video"
      "video.mp4" "Video downloaded to your device!" url env

/-- The progress text set when the branch is entered (lines 52 and 97). -/
def progressMessage (downloadType : String) : String :=
  if downloadType = "playlist" then "Downloading entire playlist... This may take a while."
  else "Downloading video... Please wait, this may take a while for very long videos (20+ hours)."

/-- The calls after the branch: line 142 when it ran to its end, the `catch` block when
it threw; then the `finally` block. -/
def closing (thrown : Option JsError) : List Effect :=
  (match thrown with
    | none => [Effect.setError ""]
    | some err => catchBlock err) ++ [Effect.setLoading false]

/-- The text of the `catch` block for a thrown error (lines 144-148). -/
def caughtMessage (err : JsError) : String :=
  if err.name = "AbortError" then timeoutMessage
  else orElseString err.message "Failed to download"

/-- The text set when the branch has run to its end (lines 95 and 140). -/
def successMessage (downloadType : String) : String :=
  if downloadType = "playlist" then "Playlist downloaded successfully as ZIP file!"
  else "Video downloaded to your device!"

/-- The document of an earlier probe used in the examples below. -/
def sampleInfo : VideoInfo :=
  { type := "single", title := "Clip", uploader := "Channel", thumbnail := none,
    video_count := none }

/-- A network failure: `fetch` rejects with a `TypeError`. -/
def networkFailure : DownloadEnv :=
  { fetch := .rejects { name := "TypeError", message := "Failed to fetch" },
    domThrow := none }

/-- The environment in which the server answers with a non-success status and a body
that is not JSON, `response.json()` rejecting with a `SyntaxError` of the given text. -/
def unparseableErrorBody (text : String) : DownloadEnv :=
  { fetch := .resolves ⟨false, none, [], .rejects { name := "SyntaxError", message := text },
      none⟩,
    domThrow := none }

/-- A successful single download: status 200, no Content-Disposition header, the body
`1, 2, 3`, nothing fails. -/
def successfulDownload : DownloadEnv :=
  { fetch := .resolves ⟨true, none, [1, 2, 3], .null "", none⟩, domThrow := none }

/-! ## The regular expression finds the leftmost occurrence -/

theorem matchLiteral_eq_some (k s rest : List Char) :
    matchLiteral k s = some rest ↔ s = k ++ rest := by
  induction k generalizing s with
  | nil => simp [matchLiteral, eq_comm]
  | cons c cs ih =>
    cases s with
    | nil => simp [matchLiteral]
    | cons d s =>
      by_cases hcd : c = d
      · subst hcd
        simp [matchLiteral, ih]
      · have hdc : ¬ d = c := fun h => hcd h.symm
        simp [matchLiteral, hcd, hdc]

theorem matchStarThenQuote_eq_some (s x : List Char) :
    matchStarThenQuote s = some x ↔ '"' ∉ x ∧ ∃ post, s = x ++ '"' :: post := by
  induction s generalizing x with
  | nil => simp [matchStarThenQuote]
  | cons c t ih =>
    by_cases hc : c = '"'
    · subst hc
      simp only [matchStarThenQuote, ne_eq, not_true_eq_false, if_false, if_true]
      constructor
      · intro h
        cases h
        exact ⟨by simp, t, by simp⟩
      · rintro ⟨hx, post, hpost⟩
        cases x with
        | nil => rfl
        | cons d x =>
          simp only [List.cons_append, List.cons.injEq] at hpost
          exact absurd (by rw [← hpost.1]; exact List.mem_cons_self _ _) hx
    · simp only [matchStarThenQuote, ne_eq, hc, not_false_eq_true, if_true, if_false]
      cases hrec : matchStarThenQuote t with
      | none =>
        refine ⟨fun h => (by cases h), ?_⟩
        rintro ⟨hx, post, hpost⟩
        cases x with
        | nil =>
          simp only [List.nil_append, List.cons.injEq] at hpost
          exact absurd hpost.1 hc
        | cons d x =>
          simp only [List.cons_append, List.cons.injEq] at hpost
          have : matchStarThenQuote t = some x :=
            (ih x).2 ⟨fun hm => hx (List.mem_cons_of_mem _ hm), post, hpost.2⟩
          simp [hrec] at this
      | some y =>
        obtain ⟨hy, post, hpost⟩ := (ih y).1 hrec
        simp only [Option.some.injEq]
        constructor
        · intro h
          subst h
          refine ⟨?_, post, by simp [hpost]⟩
          simp only [List.mem_cons, not_or]
          exact ⟨fun h => hc h.symm, hy⟩
        · rintro ⟨hx, post2, hpost2⟩
          cases x with
          | nil =>
            simp only [List.nil_append, List.cons.injEq] at hpost2
            exact absurd hpost2.1 hc
          | cons d x =>
            simp only [List.cons_append, List.cons.injEq] at hpost2
            have h2 : matchStarThenQuote t = some x :=
              (ih x).2 ⟨fun hm => hx (List.mem_cons_of_mem _ hm), post2, hpost2.2⟩
            rw [hrec] at h2
            simp only [Option.some.injEq] at h2
            rw [hpost2.1, h2]

theorem matchGroupThenQuote_eq_some (s x : List Char) :
    matchGroupThenQuote s = some x ↔
      x ≠ [] ∧ '"' ∉ x ∧ ∃ post, s = x ++ '"' :: post := by
  cases s with
  | nil => simp [matchGroupThenQuote]
  | cons c t =>
    by_cases hc : c = '"'
    · subst hc
      simp only [matchGroupThenQuote, ne_eq, not_true_eq_false, if_false]
      refine ⟨fun h => (by cases h), ?_⟩
      rintro ⟨hne, hx, post, hpost⟩
      cases x with
      | nil => exact absurd rfl hne
      | cons d x =>
        simp only [List.cons_append, List.cons.injEq] at hpost
        exact absurd (by rw [← hpost.1]; exact List.mem_cons_self _ _) hx
    · simp only [matchGroupThenQuote, ne_eq, hc, not_false_eq_true, if_true]
      cases hrec : matchStarThenQuote t with
      | none =>
        refine ⟨fun h => (by cases h), ?_⟩
        rintro ⟨hne, hx, post, hpost⟩
        cases x with
        | nil => exact absurd rfl hne
        | cons d x =>
          simp only [List.cons_append, List.cons.injEq] at hpost
          have : matchStarThenQuote t = some x :=
            (matchStarThenQuote_eq_some t x).2
              ⟨fun hm => hx (List.mem_cons_of_mem _ hm), post, hpost.2⟩
          simp [hrec] at this
      | some y =>
        obtain ⟨hy, post, hpost⟩ := (matchStarThenQuote_eq_some t y).1 hrec
        simp only [Option.some.injEq]
        constructor
        · intro h
          subst h
          refine ⟨by simp, ?_, post, by simp [hpost]⟩
          simp only [List.mem_cons, not_or]
          exact ⟨fun h => hc h.symm, hy⟩
        · rintro ⟨hne, hx, post2, hpost2⟩
          cases x with
          | nil => exact absurd rfl hne
          | cons d x =>
            simp only [List.cons_append, List.cons.injEq] at hpost2
            have h2 : matchStarThenQuote t = some x :=
              (matchStarThenQuote_eq_some t x).2
                ⟨fun hm => hx (List.mem_cons_of_mem _ hm), post2, hpost2.2⟩
            rw [hrec] at h2
            simp only [Option.some.injEq] at h2
            rw [hpost2.1, h2]

theorem matchHere_eq_some (s x : List Char) :
    matchHere s = some x ↔ ∃ post, Occurrence s [] x post := by
  unfold matchHere Occurrence
  cases hlit : matchLiteral filenameKey s with
  | none =>
    refine ⟨fun h => (by cases h), ?_⟩
    rintro ⟨post, hs, -, -⟩
    have : matchLiteral filenameKey s = some (x ++ '"' :: post) :=
      (matchLiteral_eq_some _ _ _).2 (by simpa using hs)
    simp [hlit] at this
  | some rest =>
    have hs := (matchLiteral_eq_some _ _ _).1 hlit
    simp only [matchGroupThenQuote_eq_some]
    constructor
    · rintro ⟨hne, hx, post, hpost⟩
      exact ⟨post, by simp [hs, hpost], hne, hx⟩
    · rintro ⟨post, h1, hne, hx⟩
      refine ⟨hne, hx, post, ?_⟩
      rw [hs] at h1
      simpa using h1

theorem occurrence_cons (c : Char) (h pre x post : List Char) :
    Occurrence (c :: h) (c :: pre) x post ↔ Occurrence h pre x post := by
  simp [Occurrence]

theorem occurrence_of_cons {h : List Char} {d : Char} {pre x post : List Char}
    (ho : Occurrence h (d :: pre) x post) : ∃ t, h = d :: t ∧ Occurrence t pre x post := by
  obtain ⟨h1, h2, h3⟩ := ho
  exact ⟨pre ++ filenameKey ++ x ++ '"' :: post, by simpa using h1, rfl, h2, h3⟩

theorem matchHere_nil : matchHere [] = none := by
  decide

theorem regexExec_of_leftmost (pre : List Char) :
    ∀ h x post, Leftmost h pre x post → regexExec h = some x := by
  induction pre with
  | nil =>
    intro h x post hl
    have hm : matchHere h = some x := (matchHere_eq_some h x).2 ⟨post, hl.1⟩
    cases h with
    | nil => simp [matchHere_nil] at hm
    | cons c t => simp [regexExec, hm]
  | cons d pre ih =>
    intro h x post hl
    obtain ⟨t, ht, hot⟩ := occurrence_of_cons hl.1
    subst ht
    have hnone : matchHere (d :: t) = none := by
      cases hm : matchHere (d :: t) with
      | none => rfl
      | some y =>
        obtain ⟨post2, ho2⟩ := (matchHere_eq_some _ _).1 hm
        have := hl.2 [] y post2 ho2
        simp at this
    have hrec : regexExec t = some x := by
      apply ih t x post
      refine ⟨hot, ?_⟩
      intro pre2 x2 post2 ho2
      have := hl.2 (d :: pre2) x2 post2 ((occurrence_cons d t pre2 x2 post2).2 ho2)
      simpa using this
    simp [regexExec, hnone, hrec]

theorem regexExec_of_no_occurrence (h : List Char)
    (hno : ¬ ∃ pre x post, Occurrence h pre x post) : regexExec h = none := by
  induction h with
  | nil => simp [regexExec, matchHere_nil]
  | cons c t ih =>
    have hnone : matchHere (c :: t) = none := by
      cases hm : matchHere (c :: t) with
      | none => rfl
      | some y =>
        obtain ⟨post2, ho2⟩ := (matchHere_eq_some _ _).1 hm
        exact absurd ⟨[], y, post2, ho2⟩ hno
    have hrec : regexExec t = none := by
      apply ih
      rintro ⟨pre, x, post, ho⟩
      exact hno ⟨c :: pre, x, post, (occurrence_cons c t pre x post).2 ho⟩
    simp [regexExec, hnone, hrec]

/-- Every successful match is an occurrence in the sense of the specification. -/
theorem regexExec_sound (h x : List Char) (he : regexExec h = some x) :
    ∃ pre post, Occurrence h pre x post := by
  induction h with
  | nil =>
    simp [regexExec, matchHere_nil] at he
  | cons c t ih =>
    cases hm : matchHere (c :: t) with
    | some y =>
      simp only [regexExec, hm, Option.some.injEq] at he
      subst he
      obtain ⟨post, ho⟩ := (matchHere_eq_some _ _).1 hm
      exact ⟨[], post, ho⟩
    | none =>
      simp only [regexExec, hm] at he
      obtain ⟨pre, post, ho⟩ := ih he
      exact ⟨c :: pre, post, (occurrence_cons c t pre x post).2 ho⟩

/-- When the scan finds nothing, the text has no occurrence at all. -/
theorem no_occurrence_of_regexExec_none (h : List Char) (he : regexExec h = none) :
    ¬ ∃ pre x post, Occurrence h pre x post := by
  induction h with
  | nil =>
    rintro ⟨pre, x, post, ho⟩
    cases pre with
    | nil =>
      have := (matchHere_eq_some [] x).2 ⟨post, ho⟩
      simp [matchHere_nil] at this
    | cons d pre =>
      obtain ⟨t, ht, -⟩ := occurrence_of_cons ho
      cases ht
  | cons c t ih =>
    cases hm : matchHere (c :: t) with
    | some y => simp [regexExec, hm] at he
    | none =>
      simp only [regexExec, hm] at he
      rintro ⟨pre, x, post, ho⟩
      cases pre with
      | nil =>
        have := (matchHere_eq_some (c :: t) x).2 ⟨post, ho⟩
        simp [hm] at this
      | cons d pre =>
        obtain ⟨t2, ht, hot⟩ := occurrence_of_cons ho
        simp only [List.cons.injEq] at ht
        rw [← ht.2] at hot
        exact ih he ⟨pre, x, post, hot⟩

/-- An occurrence that starts after `pre` is a match of the pattern at the text left
when `pre` is dropped. -/
theorem matchHere_drop_of_occurrence {h pre x post : List Char}
    (ho : Occurrence h pre x post) : matchHere (h.drop pre.length) = some x := by
  apply (matchHere_eq_some _ _).2
  refine ⟨post, ?_, ho.2.1, ho.2.2⟩
  rw [ho.1]
  simp [List.append_assoc]

theorem filename_ne_empty (fallback : String) (hf : fallback ≠ "")
    (cd : Option String) : filename fallback cd ≠ "" := by
  unfold filename
  cases cd with
  | none => exact hf
  | some h =>
    by_cases hh : h = ""
    · simpa [hh] using hf
    · simp only [ne_eq, hh, not_false_eq_true, if_true]
      cases regexExec h.toList with
      | none => exact hf
      | some m1 =>
        by_cases hm : m1 = []
        · simpa [hm] using hf
        · simp only [hm, not_false_eq_true, if_true]
          intro hcontra
          apply hm
          have := congrArg String.data hcontra
          simpa using this

/-! ## The shape of a `downloadVideo` run -/

theorem downloadVideoEffects_eq (url downloadType : String) (env : DownloadEnv)
    (hurl : url ≠ "") :
    downloadVideoEffects url downloadType env =
      [.setLoading true, .setError "", .setMessage "", .setDownloadedFile "",
        .setMessage (progressMessage downloadType)]
      ++ (branch url downloadType env).1 ++ closing (branch url downloadType env).2 := by
  unfold downloadVideoEffects tryBlock branch progressMessage closing
  by_cases hd : downloadType = "playlist"
  · simp only [hurl, hd, if_true, if_false]
    cases transfer "/download-playlist" none 7200000 "Failed to download playlist"
      "playlist.zip" "Playlist downloaded successfully as ZIP file!" url env with
    | mk calls thrown => cases thrown <;> simp
  · simp only [hurl, hd, if_false]
    cases transfer "/download" (some "single") 3600000 "Failed to download video"
      "video.mp4" "Video downloaded to your device!" url env with
    | mk calls thrown => cases thrown <;> simp

theorem runSave_subset (calls : List Effect) (d : Option (Nat × JsError)) (e : Effect)
    (he : e ∈ (runSave calls d).1) : e ∈ calls := by
  unfold runSave at he
  cases d with
  | none => exact he
  | some p =>
    obtain ⟨k, err⟩ := p
    by_cases hk : k < calls.length
    · simp only [hk, if_true] at he
      exact List.mem_of_mem_take he
    · simpa only [hk, if_false] using he

/-- A call of the file-save step is made only after `fetch` resolved with a success
status and `response.blob()` resolved, and is one of the six calls for that body and the
resolved name. -/
theorem save_mem_transfer (path : String) (type : Option String) (ms : Nat)
    (errorFallback nameFallback successMessage url : String) (env : DownloadEnv)
    (e : Effect) (hs : e.isSave = true)
    (he : e ∈ (transfer path type ms errorFallback nameFallback successMessage url env).1) :
    ∃ r, env.fetch = .resolves r ∧ r.ok = true ∧ r.blobFailure = none ∧
      e ∈ saveCalls { bytes := r.body } (filename nameFallback r.contentDisposition) := by
  unfold transfer at he
  cases hf : env.fetch with
  | rejects err =>
    simp only [hf] at he
    simp only [List.mem_cons, List.mem_singleton, List.not_mem_nil, or_false] at he
    rcases he with h | h | h <;> subst h <;> simp [Effect.isSave] at hs
  | resolves r =>
    refine ⟨r, rfl, ?_⟩
    simp only [hf] at he
    cases hok : r.ok with
    | false =>
      simp only [hok] at he
      cases hj : r.json <;> simp only [hj] at he <;>
        simp only [Bool.false_eq_true, not_false_eq_true, if_true, List.mem_append,
          List.mem_cons, List.mem_singleton, List.not_mem_nil, or_false] at he <;>
        (rcases he with (h | h | h) | h <;> subst h <;> simp [Effect.isSave] at hs)
    | true =>
      simp only [hok, not_true_eq_false, if_false] at he
      cases hb : r.blobFailure with
      | some err =>
        simp only [hb, List.mem_append, List.mem_cons, List.mem_singleton,
          List.not_mem_nil, or_false] at he
        rcases he with (h | h | h) | h | h <;> subst h <;> simp [Effect.isSave] at hs
      | none =>
        refine ⟨rfl, rfl, ?_⟩
        simp only [hb] at he
        have hsub := runSave_subset
          (saveCalls { bytes := r.body } (filename nameFallback r.contentDisposition))
          env.domThrow e
        cases hrun : runSave
          (saveCalls { bytes := r.body } (filename nameFallback r.contentDisposition))
          env.domThrow with
        | mk calls thrown =>
          rw [hrun] at hsub he
          cases thrown with
          | some err =>
            simp only [List.mem_append, List.mem_cons, List.mem_singleton,
              List.not_mem_nil, or_false] at he
            rcases he with ((h | h | h) | h | h) | h
            · subst h; simp [Effect.isSave] at hs
            · subst h; simp [Effect.isSave] at hs
            · subst h; simp [Effect.isSave] at hs
            · subst h; simp [Effect.isSave] at hs
            · subst h; simp [Effect.isSave] at hs
            · exact hsub h
          | none =>
            simp only [List.mem_append, List.mem_cons, List.mem_singleton,
              List.not_mem_nil, or_false] at he
            rcases he with (((h | h | h) | h | h) | h) | h
            · subst h; simp [Effect.isSave] at hs
            · subst h; simp [Effect.isSave] at hs
            · subst h; simp [Effect.isSave] at hs
            · subst h; simp [Effect.isSave] at hs
            · subst h; simp [Effect.isSave] at hs
            · exact hsub h
            · subst h; simp [Effect.isSave] at hs

theorem save_mem_branch (url downloadType : String) (env : DownloadEnv)
    (e : Effect) (hs : e.isSave = true) (he : e ∈ (branch url downloadType env).1) :
    ∃ r, env.fetch = .resolves r ∧ r.ok = true ∧ r.blobFailure = none ∧
      e ∈ saveCalls { bytes := r.body }
        (filename (defaultFilename downloadType) r.contentDisposition) := by
  unfold branch at he
  unfold defaultFilename
  by_cases hd : downloadType = "playlist"
  · simp only [hd, if_true] at he ⊢
    exact save_mem_transfer _ _ _ _ _ _ _ _ e hs he
  · simp only [hd, if_false] at he ⊢
    exact save_mem_transfer _ _ _ _ _ _ _ _ e hs he

theorem save_mem_downloadVideoEffects (url downloadType : String) (env : DownloadEnv)
    (e : Effect) (hs : e.isSave = true) (he : e ∈ downloadVideoEffects url downloadType env) :
    ∃ r, env.fetch = .resolves r ∧ r.ok = true ∧ r.blobFailure = none ∧
      e ∈ saveCalls { bytes := r.body }
        (filename (defaultFilename downloadType) r.contentDisposition) := by
  by_cases hurl : url = ""
  · simp only [downloadVideoEffects, hurl, if_true, List.mem_singleton] at he
    subst he
    simp [Effect.isSave] at hs
  · rw [downloadVideoEffects_eq url downloadType env hurl] at he
    simp only [List.mem_append] at he
    rcases he with (h | h) | h
    · simp only [List.mem_cons, List.mem_singleton, List.not_mem_nil, or_false] at h
      rcases h with h | h | h | h | h <;> subst h <;> simp [Effect.isSave] at hs
    · exact save_mem_branch url downloadType env e hs h
    · unfold closing catchBlock at h
      generalize (branch url downloadType env).2 = thrown at h
      cases thrown with
      | none =>
        simp only [List.mem_append, List.mem_singleton] at h
        rcases h with h | h <;> subst h <;> simp [Effect.isSave] at hs
      | some err =>
        simp only [List.mem_append, List.mem_cons, List.mem_singleton, List.not_mem_nil,
          or_false] at h
        rcases h with (h | h) | h
        · subst h
          split at hs <;> simp [Effect.isSave] at hs
        · subst h; simp [Effect.isSave] at hs
        · subst h; simp [Effect.isSave] at hs

theorem filename_of_leftmost (fallback h : String) (pre x post : List Char)
    (hl : Leftmost h.toList pre x post) : filename fallback (some h) = String.mk x := by
  have hx : x ≠ [] := hl.1.2.1
  have hh : h ≠ "" := by
    intro hempty
    have h1 := hl.1.1
    rw [hempty] at h1
    simp at h1
  have he : regexExec h.data = some x := regexExec_of_leftmost pre h.toList x post hl
  simp [filename, hh, he, hx]

/-- In the header `attachment; filename="movie.mp4"` the leftmost occurrence is the one
after `attachment; `, and its name is `movie.mp4`. -/
theorem leftmost_movie :
    Leftmost "attachment; filename=\"movie.mp4\"".toList
      "attachment; ".toList "movie.mp4".toList [] := by
  refine ⟨⟨by decide, by decide, by decide⟩, ?_⟩
  intro pre2 x2 post2 ho2
  by_contra hlt
  have hlen : pre2.length < 12 := by simpa using hlt
  have hnone : ∀ k < 12,
      matchHere (List.drop k "attachment; filename=\"movie.mp4\"".toList) = none := by
    decide
  have hm := matchHere_drop_of_occurrence ho2
  rw [hnone _ hlen] at hm
  cases hm

/-- C1 (filename resolution in `downloadVideo`). For every value of the
Content-Disposition header (`none` when absent) and every mode: when the header has an
occurrence of `filename="X"` with `X` a non-empty run of characters other than the
double quote, the name is the `X` of the leftmost such occurrence, verbatim; when it has
none (header absent, empty, or without such an occurrence), the name is the literal of
the mode, `playlist.zip` in playlist mode and `video.mp4` otherwise; the name is never
the empty string; and the name given to every anchor that `downloadVideo` clicks is this
name for the header of the response. -/
theorem filename_resolution (contentDisposition : Option String) (downloadType : String) :
    (∀ h pre x post, contentDisposition = some h → Leftmost h.toList pre x post →
      filename (defaultFilename downloadType) contentDisposition = String.mk x) ∧
    ((∀ h, contentDisposition = some h → ¬ ∃ pre x post, Occurrence h.toList pre x post) →
      filename (defaultFilename downloadType) contentDisposition
        = defaultFilename downloadType) ∧
    (downloadType = "playlist" → defaultFilename downloadType = "playlist.zip") ∧
    (downloadType ≠ "playlist" → defaultFilename downloadType = "video.mp4") ∧
    filename (defaultFilename downloadType) contentDisposition ≠ "" ∧
    (∀ url env a, Effect.click a ∈ downloadVideoEffects url downloadType env →
      ∃ r, env.fetch = .resolves r ∧
        a.download = filename (defaultFilename downloadType) r.contentDisposition) := by
  refine ⟨?_, ?_, ?_, ?_, ?_, ?_⟩
  · intro h pre x post hcd hl
    subst hcd
    exact filename_of_leftmost _ h pre x post hl
  · intro hno
    unfold filename
    cases contentDisposition with
    | none => rfl
    | some h =>
      have he : regexExec h.data = none :=
        regexExec_of_no_occurrence h.toList (hno h rfl)
      simp [he]
  · intro hd
    simp [defaultFilename, hd]
  · intro hd
    simp [defaultFilename, hd]
  · apply filename_ne_empty
    unfold defaultFilename
    split <;> decide
  · intro url env a ha
    obtain ⟨r, hr, -, -, hmem⟩ :=
      save_mem_downloadVideoEffects url downloadType env (.click a) rfl ha
    refine ⟨r, hr, ?_⟩
    simp only [saveCalls, List.mem_cons, List.mem_singleton, List.not_mem_nil, or_false,
      Effect.click.injEq, reduceCtorEq, false_or] at hmem
    rw [hmem]

/-- Witness for C1 on the header `attachment; filename="movie.mp4"`, on an absent
header and on `filename=""`. -/
theorem filename_resolution_witness :
    filename (defaultFilename "single") (some "attachment; filename=\"movie.mp4\"")
      = "movie.mp4" ∧
    filename (defaultFilename "playlist") none = "playlist.zip" ∧
    filename (defaultFilename "single") (some "filename=\"\"") = "video.mp4" := by
  refine ⟨?_, ?_, ?_⟩
  · exact (filename_resolution (some "attachment; filename=\"movie.mp4\"") "single").1
      _ _ _ _ rfl leftmost_movie
  · have h := (filename_resolution none "playlist").2.1 (by simp)
    rw [h]
    exact (filename_resolution none "playlist").2.2.1 rfl
  · have hno : ∀ h, some "filename=\"\"" = some h →
        ¬ ∃ pre x post, Occurrence h.toList pre x post := by
      intro h hh
      cases hh
      exact no_occurrence_of_regexExec_none _ (by decide)
    have h := (filename_resolution (some "filename=\"\"") "single").2.1 hno
    rw [h]
    exact (filename_resolution (some "filename=\"\"") "single").2.2.2.1 (by decide)

/-! ## The timer -/

theorem armedTimeouts_append (xs ys : List Effect) :
    armedTimeouts (xs ++ ys) = armedTimeouts xs ++ armedTimeouts ys := by
  simp [armedTimeouts, List.filterMap_append]

theorem armedTimeouts_runSave (blob : Blob) (name : String) (d : Option (Nat × JsError)) :
    armedTimeouts (runSave (saveCalls blob name) d).1 = [] := by
  cases d with
  | none => simp [runSave, saveCalls, armedTimeouts]
  | some p =>
    obtain ⟨k, err⟩ := p
    by_cases hk : k < 6
    · interval_cases k <;> simp [runSave, saveCalls, armedTimeouts]
    · simp [runSave, saveCalls, armedTimeouts, hk]

theorem armedTimeouts_transfer (path : String) (type : Option String) (ms : Nat)
    (errorFallback nameFallback successMessage url : String) (env : DownloadEnv) :
    armedTimeouts (transfer path type ms errorFallback nameFallback successMessage url env).1
      = [ms] := by
  unfold transfer
  cases hf : env.fetch with
  | rejects err => simp [armedTimeouts]
  | resolves r =>
    cases hok : r.ok with
    | false => cases hj : r.json <;> simp [armedTimeouts, hok, hj]
    | true =>
      cases hb : r.blobFailure with
      | some err => simp [armedTimeouts, hok, hb]
      | none =>
        have hsave := armedTimeouts_runSave { bytes := r.body }
          (filename nameFallback r.contentDisposition) env.domThrow
        cases hrun : runSave
          (saveCalls { bytes := r.body } (filename nameFallback r.contentDisposition))
          env.domThrow with
        | mk calls thrown =>
          rw [hrun] at hsave
          simp only [hok, hb, hrun, not_true_eq_false, if_false]
          cases thrown <;>
            simp only [armedTimeouts_append, hsave] <;>
            simp [armedTimeouts]

theorem armedTimeouts_closing (thrown : Option JsError) :
    armedTimeouts (closing thrown) = [] := by
  cases thrown with
  | none => simp [closing, armedTimeouts]
  | some err =>
    by_cases hn : err.name = "AbortError" <;> simp [closing, catchBlock, armedTimeouts, hn]

/-- C2 (timeout budget). A `downloadVideo` call with a non-empty identifier arms exactly
one timer, and its delay depends on the mode only: 7 200 000 ms (120 minutes) in playlist
mode and 3 600 000 ms (60 minutes) otherwise, whatever the identifier and whatever the
environment answers; the playlist budget is twice the single budget and no third value
is used. -/
theorem timeout_budget (url downloadType : String) (env : DownloadEnv) (hurl : url ≠ "") :
    armedTimeouts (downloadVideoEffects url downloadType env) = [timeoutMs downloadType] ∧
    (downloadType = "playlist" → timeoutMs downloadType = 120 * 60 * 1000) ∧
    (downloadType ≠ "playlist" → timeoutMs downloadType = 60 * 60 * 1000) ∧
    timeoutMs "single" = 3600000 ∧ timeoutMs "playlist" = 7200000 ∧
    timeoutMs "playlist" = 2 * timeoutMs "single" ∧
    (timeoutMs downloadType = 3600000 ∨ timeoutMs downloadType = 7200000) := by
  refine ⟨?_, ?_, ?_, by decide, by decide, by decide, ?_⟩
  · rw [downloadVideoEffects_eq url downloadType env hurl, armedTimeouts_append,
      armedTimeouts_append, armedTimeouts_closing]
    unfold branch timeoutMs
    by_cases hd : downloadType = "playlist"
    · simp only [hd, if_true, armedTimeouts_transfer]
      simp [armedTimeouts]
    · simp only [hd, if_false, armedTimeouts_transfer]
      simp [armedTimeouts]
  · intro hd
    simp [timeoutMs, hd]
  · intro hd
    simp [timeoutMs, hd]
  · unfold timeoutMs
    split
    · exact Or.inr rfl
    · exact Or.inl rfl

/-- Witness for C2: a single download of `u` whose request fails at the network
level. -/
theorem timeout_budget_witness :
    armedTimeouts (downloadVideoEffects "u" "single"
      { fetch := .rejects { name := "TypeError", message := "Failed to fetch" },
        domThrow := none }) = [3600000] :=
  (timeout_budget "u" "single" _ (by decide)).1

/-! ## The state when a handler has terminated -/

theorem applyEffects_append (s : AppState) (xs ys : List Effect) :
    applyEffects s (xs ++ ys) = applyEffects (applyEffects s xs) ys := by
  simp [applyEffects, List.foldl_append]

theorem applyEffects_closing_some (s : AppState) (err : JsError) :
    applyEffects s (closing (some err)) =
      { s with error := caughtMessage err, message := "", loading := false } := by
  by_cases hn : err.name = "AbortError" <;>
    simp [closing, catchBlock, caughtMessage, applyEffects, applyEffect, hn]

theorem applyEffects_closing_none (s : AppState) :
    applyEffects s (closing none) = { s with error := "", loading := false } := by
  simp [closing, applyEffects, applyEffect]

theorem downloadVideo_eq (s : AppState) (env : DownloadEnv) (hurl : s.url ≠ "") :
    downloadVideo s env =
      applyEffects
        (applyEffects
          (applyEffects s [.setLoading true, .setError "", .setMessage "",
            .setDownloadedFile "", .setMessage (progressMessage s.downloadType)])
          (branch s.url s.downloadType env).1)
        (closing (branch s.url s.downloadType env).2) := by
  unfold downloadVideo
  rw [downloadVideoEffects_eq _ _ _ hurl, applyEffects_append, applyEffects_append]

/-- When the `try` block throws, the handler ends with the text of the `catch` block,
an empty message and `loading` reset. -/
theorem downloadVideo_thrown (s : AppState) (env : DownloadEnv) (err : JsError)
    (hurl : s.url ≠ "") (hthrown : (branch s.url s.downloadType env).2 = some err) :
    (downloadVideo s env).error = caughtMessage err ∧ (downloadVideo s env).message = "" ∧
      (downloadVideo s env).loading = false := by
  rw [downloadVideo_eq s env hurl, hthrown, applyEffects_closing_some]
  exact ⟨rfl, rfl, rfl⟩

theorem transfer_completed (path : String) (type : Option String) (ms : Nat)
    (errorFallback nameFallback success url : String) (env : DownloadEnv)
    (hdone : (transfer path type ms errorFallback nameFallback success url env).2 = none) :
    ∃ calls, (transfer path type ms errorFallback nameFallback success url env).1
      = calls ++ [.setMessage success] := by
  unfold transfer at hdone ⊢
  cases hf : env.fetch with
  | rejects err => simp [hf] at hdone
  | resolves r =>
    cases hok : r.ok with
    | false => cases hj : r.json <;> simp [hf, hok, hj] at hdone
    | true =>
      cases hb : r.blobFailure with
      | some err => simp [hf, hok, hb] at hdone
      | none =>
        cases hrun : runSave
          (saveCalls { bytes := r.body } (filename nameFallback r.contentDisposition))
          env.domThrow with
        | mk calls thrown =>
          cases thrown with
          | some err => simp [hf, hok, hb, hrun] at hdone
          | none =>
            simp only [hok, hb, hrun, not_true_eq_false, if_false]
            exact ⟨_, rfl⟩

theorem branch_completed (url downloadType : String) (env : DownloadEnv)
    (hdone : (branch url downloadType env).2 = none) :
    ∃ calls, (branch url downloadType env).1
      = calls ++ [.setMessage (successMessage downloadType)] := by
  unfold branch at hdone ⊢
  unfold successMessage
  by_cases hd : downloadType = "playlist"
  · simp only [hd, if_true] at hdone ⊢
    exact transfer_completed _ _ _ _ _ _ _ _ hdone
  · simp only [hd, if_false] at hdone ⊢
    exact transfer_completed _ _ _ _ _ _ _ _ hdone

/-- When the `try` block runs to its end, the handler ends with no error, the success
text of the mode and `loading` reset. -/
theorem downloadVideo_completed (s : AppState) (env : DownloadEnv)
    (hurl : s.url ≠ "") (hdone : (branch s.url s.downloadType env).2 = none) :
    (downloadVideo s env).error = "" ∧
      (downloadVideo s env).message = successMessage s.downloadType ∧
      (downloadVideo s env).loading = false := by
  obtain ⟨calls, hcalls⟩ := branch_completed _ _ _ hdone
  rw [downloadVideo_eq s env hurl, hdone, applyEffects_closing_none, hcalls,
    applyEffects_append]
  simp [applyEffects, applyEffect]

/-- C3 (empty identifier). In every state whose identifier is the empty string,
`getVideoInfo` and `downloadVideo` make a single call, `setError` with the text
`Please enter a YouTube URL`: no network request is issued, `setLoading` is not called
(the busy flag keeps its value), and the handler ends with that non-empty error text. -/
theorem empty_identifier (s : AppState) (outcome : AxiosOutcome) (env : DownloadEnv)
    (hurl : s.url = "") :
    getVideoInfoEffects s.url s.downloadType outcome
      = [.setError "Please enter a YouTube URL"] ∧
    downloadVideoEffects s.url s.downloadType env
      = [.setError "Please enter a YouTube URL"] ∧
    (∀ e ∈ getVideoInfoEffects s.url s.downloadType outcome,
      e.isNetwork = false ∧ e.isSetLoading = false) ∧
    (∀ e ∈ downloadVideoEffects s.url s.downloadType env,
      e.isNetwork = false ∧ e.isSetLoading = false) ∧
    (getVideoInfo s outcome).error = "Please enter a YouTube URL" ∧
    (downloadVideo s env).error = "Please enter a YouTube URL" ∧
    (getVideoInfo s outcome).loading = s.loading ∧
    (downloadVideo s env).loading = s.loading ∧
    "Please enter a YouTube URL" ≠ "" := by
  have hg : getVideoInfoEffects s.url s.downloadType outcome
      = [.setError "Please enter a YouTube URL"] := by
    simp [getVideoInfoEffects, hurl]
  have hd : downloadVideoEffects s.url s.downloadType env
      = [.setError "Please enter a YouTube URL"] := by
    simp [downloadVideoEffects, hurl]
  refine ⟨hg, hd, ?_, ?_, ?_, ?_, ?_, ?_, by decide⟩
  · intro e he
    rw [hg, List.mem_singleton] at he
    subst he
    exact ⟨rfl, rfl⟩
  · intro e he
    rw [hd, List.mem_singleton] at he
    subst he
    exact ⟨rfl, rfl⟩
  · simp [getVideoInfo, hg, applyEffects, applyEffect]
  · simp [downloadVideo, hd, applyEffects, applyEffect]
  · simp [getVideoInfo, hg, applyEffects, applyEffect]
  · simp [downloadVideo, hd, applyEffects, applyEffect]

/-- Witness for C3 at the initial state, whose identifier is empty. -/
theorem empty_identifier_witness :
    (downloadVideo AppState.initial
      { fetch := .rejects { name := "TypeError", message := "Failed to fetch" },
        domThrow := none }).error = "Please enter a YouTube URL" :=
  (empty_identifier AppState.initial (.rejects none) _ rfl).2.2.2.2.2.1

theorem branch_rejects (url downloadType : String) (env : DownloadEnv) (err : JsError)
    (hf : env.fetch = .rejects err) : (branch url downloadType env).2 = some err := by
  unfold branch transfer
  by_cases hd : downloadType = "playlist" <;> simp [hd, hf]

theorem branch_document (url downloadType : String) (env : DownloadEnv) (r : Response)
    (m : String) (hf : env.fetch = .resolves r) (hok : r.ok = false)
    (hj : r.json = .document (some m)) (hm : m ≠ "") :
    (branch url downloadType env).2 = some { name := "Error", message := m } := by
  unfold branch transfer
  by_cases hd : downloadType = "playlist" <;>
    simp [hd, hf, hok, hj, orElseUndefined, orElseString, hm]

theorem branch_json_rejects (url downloadType : String) (env : DownloadEnv) (r : Response)
    (err : JsError) (hf : env.fetch = .resolves r) (hok : r.ok = false)
    (hj : r.json = .rejects err) :
    (branch url downloadType env).2 = some err := by
  unfold branch transfer
  by_cases hd : downloadType = "playlist" <;> simp [hd, hf, hok, hj]

/-- C4 (timeout). For every state with a non-empty identifier and every mode, when the
`fetch` of `downloadVideo` rejects with an error named `AbortError` (the abort issued by
the timer), the handler ends with the timeout text as error, which contains the word
`timeout` and the advice to try a `shorter video`, with an empty message, and no call of
the file-save step (creating the anchor, clicking it) is made. -/
theorem timeout_abort (s : AppState) (env : DownloadEnv) (err : JsError)
    (hurl : s.url ≠ "") (hf : env.fetch = .rejects err) (hn : err.name = "AbortError") :
    (downloadVideo s env).error = timeoutMessage ∧
    (downloadVideo s env).message = "" ∧
    (∀ e ∈ downloadVideoEffects s.url s.downloadType env, e.isSave = false) ∧
    clickedAnchors (downloadVideoEffects s.url s.downloadType env) = [] ∧
    (∃ a b, timeoutMessage = a ++ "timeout" ++ b) ∧
    (∃ a b, timeoutMessage = a ++ "shorter video" ++ b) := by
  have hthrown := branch_rejects s.url s.downloadType env err hf
  obtain ⟨he, hm, -⟩ := downloadVideo_thrown s env err hurl hthrown
  have hsave : ∀ e ∈ downloadVideoEffects s.url s.downloadType env, e.isSave = false := by
    intro e he
    cases hs : e.isSave with
    | false => rfl
    | true =>
      obtain ⟨r, hr, -⟩ := save_mem_downloadVideoEffects _ _ _ e hs he
      rw [hf] at hr
      cases hr
  refine ⟨?_, hm, hsave, ?_, ?_, ?_⟩
  · rw [he]
    simp [caughtMessage, hn]
  · unfold clickedAnchors
    rw [List.filterMap_eq_nil_iff]
    intro e he
    have := hsave e he
    cases e <;> simp_all [Effect.isSave]
  · exact ⟨"Download ",
      ". The video may be too long or your connection is slow. Please try a shorter video.",
      by decide⟩
  · exact ⟨"Download timeout. The video may be too long or your connection is slow. Please try a ",
      ".", by decide⟩

/-- Witness for C4: a single download of `u` aborted by the timer. -/
theorem timeout_abort_witness :
    (downloadVideo { AppState.initial with url := "u" }
      { fetch := .rejects { name := "AbortError", message := "The user aborted a request." },
        domThrow := none }).error = timeoutMessage :=
  (timeout_abort { AppState.initial with url := "u" } _ _ (by decide) rfl rfl).1

/-- C5 (server error pass-through). For every state with a non-empty identifier, every
mode and every non-empty text `m`: when the download request is answered with a
non-success status and a JSON document whose `error` member is `m`, the error shown
when `downloadVideo` ends is `m` itself; and when the probe request is rejected with
such a document, the error shown when `getVideoInfo` ends is `m` itself. -/
theorem server_error_pass_through (s : AppState) (env : DownloadEnv) (r : Response)
    (m : String) (hurl : s.url ≠ "") (hm : m ≠ "")
    (hf : env.fetch = .resolves r) (hok : r.ok = false) (hj : r.json = .document (some m)) :
    (downloadVideo s env).error = m ∧ (getVideoInfo s (.rejects (some m))).error = m := by
  constructor
  · have hthrown := branch_document s.url s.downloadType env r m hf hok hj hm
    rw [(downloadVideo_thrown s env _ hurl hthrown).1]
    simp [caughtMessage, orElseString, hm]
  · simp [getVideoInfo, getVideoInfoEffects, hurl, applyEffects, applyEffect,
      orElseUndefined, orElseString, hm]

/-- Witness for C5: the server answers a single download of `u` with status 500 and the
document whose `error` member is `Unavailable`. -/
theorem server_error_pass_through_witness :
    (downloadVideo { AppState.initial with url := "u" }
      { fetch := .resolves ⟨false, none, [], .document (some "Unavailable"), none⟩,
        domThrow := none }).error = "Unavailable" ∧
    (getVideoInfo { AppState.initial with url := "u" }
      (.rejects (some "Unavailable"))).error = "Unavailable" :=
  server_error_pass_through { AppState.initial with url := "u" } _ _ "Unavailable"
    (by decide) (by decide) rfl rfl rfl

/-- C8 (busy-state reset). For every state with a non-empty identifier, every mode and
every answer of the environment (success, abort by the timer, server error, network
failure, a failure while the body is read or while the file is saved), `loading` is
false when `getVideoInfo` has terminated and when `downloadVideo` has terminated, and
the last call each handler makes is `setLoading(false)`. -/
theorem busy_state_reset (s : AppState) (outcome : AxiosOutcome) (env : DownloadEnv)
    (hurl : s.url ≠ "") :
    (getVideoInfo s outcome).loading = false ∧
    (downloadVideo s env).loading = false ∧
    (getVideoInfoEffects s.url s.downloadType outcome).getLast? = some (.setLoading false) ∧
    (downloadVideoEffects s.url s.downloadType env).getLast? = some (.setLoading false) := by
  refine ⟨?_, ?_, ?_, ?_⟩
  · cases outcome <;>
      simp [getVideoInfo, getVideoInfoEffects, hurl, applyEffects, applyEffect]
  · cases hb : (branch s.url s.downloadType env).2 with
    | none => exact (downloadVideo_completed s env hurl hb).2.2
    | some err => exact (downloadVideo_thrown s env err hurl hb).2.2
  · cases outcome <;> simp [getVideoInfoEffects, hurl]
  · rw [downloadVideoEffects_eq _ _ _ hurl]
    unfold closing
    rw [← List.append_assoc, List.getLast?_append]
    simp

/-- Witness for C8: a playlist download of `u` whose file-save step throws at the
click. -/
theorem busy_state_reset_witness :
    (downloadVideo { AppState.initial with url := "u", downloadType := "playlist" }
      { fetch := .resolves ⟨true, none, [1, 2, 3], .null "", none⟩,
        domThrow := some (3, { name := "Error", message := "blocked" }) }).loading = false :=
  (busy_state_reset { AppState.initial with url := "u", downloadType := "playlist" }
    (.rejects none) _ (by decide)).2.1

/-- C6 (file saved once). For every state with a non-empty identifier and every mode:
when the download request is answered with a success status, a Content-Disposition
header whose leftmost `filename="X"` occurrence names `f`, and a body `B` that is read
and saved without failure, the anchor is created once and clicked once, its download
name is `f` and its address is the object URL of a blob that holds the whole of `B`;
the handler ends with the success text and no error. -/
theorem file_saved_once (s : AppState) (env : DownloadEnv) (r : Response)
    (h : String) (pre f post : List Char) (hurl : s.url ≠ "")
    (hf : env.fetch = .resolves r) (hok : r.ok = true) (hb : r.blobFailure = none)
    (hd : env.domThrow = none) (hcd : r.contentDisposition = some h)
    (hl : Leftmost h.toList pre f post) :
    clickedAnchors (downloadVideoEffects s.url s.downloadType env)
      = [{ href := some { bytes := r.body }, download := String.mk f }] ∧
    (downloadVideoEffects s.url s.downloadType env).filter Effect.isSave
      = [.createElement "a",
          .click { href := some { bytes := r.body }, download := String.mk f }] ∧
    Effect.createObjectURL { bytes := r.body }
      ∈ downloadVideoEffects s.url s.downloadType env ∧
    (downloadVideo s env).message = successMessage s.downloadType ∧
    (downloadVideo s env).error = "" := by
  have hname : ∀ fallback, filename fallback r.contentDisposition = String.mk f := by
    intro fallback
    rw [hcd]
    exact filename_of_leftmost fallback h pre f post hl
  have hdone : (branch s.url s.downloadType env).2 = none := by
    unfold branch transfer
    by_cases hdt : s.downloadType = "playlist" <;> simp [hdt, hf, hok, hb, hd, runSave]
  obtain ⟨herr, hmsg, -⟩ := downloadVideo_completed s env hurl hdone
  refine ⟨?_, ?_, ?_, hmsg, herr⟩
  · by_cases hdt : s.downloadType = "playlist" <;>
      simp [downloadVideoEffects, tryBlock, transfer, hurl, hdt, hf, hok, hb, hd, runSave,
        saveCalls, clickedAnchors, hname]
  · by_cases hdt : s.downloadType = "playlist" <;>
      simp [downloadVideoEffects, tryBlock, transfer, hurl, hdt, hf, hok, hb, hd, runSave,
        saveCalls, Effect.isSave, hname, List.filter]
  · by_cases hdt : s.downloadType = "playlist" <;>
      simp [downloadVideoEffects, tryBlock, transfer, hurl, hdt, hf, hok, hb, hd, runSave,
        saveCalls, hname]

/-- Witness for C6: a single download of `u` answered with the header
`attachment; filename="movie.mp4"` and the body `1, 2, 3`. -/
theorem file_saved_once_witness :
    clickedAnchors (downloadVideoEffects "u" "single"
      { fetch := .resolves
          ⟨true, some "attachment; filename=\"movie.mp4\"", [1, 2, 3], .null "", none⟩,
        domThrow := none })
      = [{ href := some { bytes := [1, 2, 3] }, download := "movie.mp4" }] :=
  (file_saved_once { AppState.initial with url := "u" }
    { fetch := .resolves
        ⟨true, some "attachment; filename=\"movie.mp4\"", [1, 2, 3], .null "", none⟩,
      domThrow := none }
    ⟨true, some "attachment; filename=\"movie.mp4\"", [1, 2, 3], .null "", none⟩
    "attachment; filename=\"movie.mp4\"" "attachment; ".toList "movie.mp4".toList []
    (by decide) rfl rfl rfl rfl rfl leftmost_movie).1

/-! ## The stored probe result -/

theorem applyEffects_runSave (s : AppState) (blob : Blob) (name : String)
    (d : Option (Nat × JsError)) :
    applyEffects s (runSave (saveCalls blob name) d).1 = s := by
  cases d with
  | none => simp [runSave, saveCalls, applyEffects, applyEffect]
  | some p =>
    obtain ⟨k, err⟩ := p
    by_cases hk : k < 6
    · interval_cases k <;> simp [runSave, saveCalls, applyEffects, applyEffect]
    · simp [runSave, saveCalls, applyEffects, applyEffect, hk]

theorem videoInfo_transfer (s : AppState) (path : String) (type : Option String) (ms : Nat)
    (errorFallback nameFallback success url : String) (env : DownloadEnv) :
    (applyEffects s
      (transfer path type ms errorFallback nameFallback success url env).1).videoInfo
      = s.videoInfo := by
  unfold transfer
  cases hf : env.fetch with
  | rejects err => simp [applyEffects, applyEffect]
  | resolves r =>
    cases hok : r.ok with
    | false => cases hj : r.json <;> simp [applyEffects, applyEffect, hok, hj]
    | true =>
      cases hb : r.blobFailure with
      | some err => simp [applyEffects, applyEffect, hok, hb]
      | none =>
        have hsave := fun s0 => applyEffects_runSave s0 { bytes := r.body }
          (filename nameFallback r.contentDisposition) env.domThrow
        cases hrun : runSave
          (saveCalls { bytes := r.body } (filename nameFallback r.contentDisposition))
          env.domThrow with
        | mk calls thrown =>
          rw [hrun] at hsave
          simp only [hok, hb, hrun, not_true_eq_false, if_false]
          cases thrown <;>
            simp only [applyEffects_append, hsave] <;>
            simp [applyEffects, applyEffect]

/-- `downloadVideo` has no call of `setVideoInfo`: the stored probe result is the same
before and after it, whatever the identifier, the mode and the environment. -/
theorem downloadVideo_videoInfo (s : AppState) (env : DownloadEnv) :
    (downloadVideo s env).videoInfo = s.videoInfo := by
  by_cases hurl : s.url = ""
  · simp [downloadVideo, downloadVideoEffects, hurl, applyEffects, applyEffect]
  · rw [downloadVideo_eq s env hurl]
    have hclose : ∀ (s0 : AppState) thrown,
        (applyEffects s0 (closing thrown)).videoInfo = s0.videoInfo := by
      intro s0 thrown
      cases thrown with
      | none => rw [applyEffects_closing_none]
      | some err => rw [applyEffects_closing_some]
    rw [hclose]
    unfold branch
    by_cases hd : s.downloadType = "playlist"
    · simp only [hd, if_true, videoInfo_transfer]
      simp [applyEffects, applyEffect]
    · simp only [hd, if_false, videoInfo_transfer]
      simp [applyEffects, applyEffect]

/-- Counterexample to C9 as stated: after a successful probe of `u`, a download of `u`
starts and ends in an error (a network failure), and `videoInfo` still holds the result
of the earlier probe. -/
theorem videoInfo_survives_failed_download :
    (run [.setUrl "u", .getVideoInfo (.resolves sampleInfo),
        .downloadVideo networkFailure]).videoInfo = some sampleInfo ∧
    (run [.setUrl "u", .getVideoInfo (.resolves sampleInfo),
        .downloadVideo networkFailure]).error = "Failed to fetch" := by
  decide

/-- C9 as amended. The stored probe result is discarded when a new probe starts and when
a probe fails: a `getVideoInfo` call with a non-empty identifier first makes the calls
that reset the state, among them `setVideoInfo(null)`, before it issues the request, so
that `videoInfo` is `null` while the request is in flight; when it has terminated,
`videoInfo` is `null` if the request failed and the new document if it succeeded.
`downloadVideo` never changes `videoInfo`. -/
theorem videoInfo_discarded_by_probe (s : AppState) (outcome : AxiosOutcome)
    (env : DownloadEnv) (hurl : s.url ≠ "") :
    (∃ rest, getVideoInfoEffects s.url s.downloadType outcome =
      [.setLoading true, .setError "", .setMessage "", .setVideoInfo none,
        .axiosPost "/info" s.url s.downloadType] ++ rest) ∧
    (applyEffects s [.setLoading true, .setError "", .setMessage "",
      .setVideoInfo none]).videoInfo = none ∧
    (∀ e, outcome = .rejects e → (getVideoInfo s outcome).videoInfo = none) ∧
    (∀ data, outcome = .resolves data → (getVideoInfo s outcome).videoInfo = some data) ∧
    (downloadVideo s env).videoInfo = s.videoInfo := by
  refine ⟨?_, ?_, ?_, ?_, downloadVideo_videoInfo s env⟩
  · simp only [getVideoInfoEffects, hurl, if_false]
    exact ⟨_, List.append_assoc _ _ _⟩
  · simp [applyEffects, applyEffect]
  · intro e he
    subst he
    simp [getVideoInfo, getVideoInfoEffects, hurl, applyEffects, applyEffect]
  · intro data hdata
    subst hdata
    simp [getVideoInfo, getVideoInfoEffects, hurl, applyEffects, applyEffect]

/-- Witness for C9 as amended: a probe of `u` that fails, started in a state that holds
the result of an earlier probe. -/
theorem videoInfo_discarded_by_probe_witness :
    (getVideoInfo { AppState.initial with url := "u", videoInfo := some sampleInfo }
      (.rejects none)).videoInfo = none :=
  (videoInfo_discarded_by_probe
    { AppState.initial with url := "u", videoInfo := some sampleInfo } (.rejects none)
    networkFailure (by decide)).2.2.1 none rfl

/-! ## Error bodies that are not JSON, and the status after a validation failure -/

/-- When the error body cannot be parsed, the error shown is the text of the error that
`response.json()` rejected with, as long as that text is not empty. -/
theorem downloadVideo_json_rejects (s : AppState) (env : DownloadEnv) (r : Response)
    (text : String) (hurl : s.url ≠ "") (hf : env.fetch = .resolves r) (hok : r.ok = false)
    (hj : r.json = .rejects { name := "SyntaxError", message := text }) (ht : text ≠ "") :
    (downloadVideo s env).error = text := by
  have hthrown := branch_json_rejects s.url s.downloadType env r _ hf hok hj
  rw [(downloadVideo_thrown s env _ hurl hthrown).1]
  simp [caughtMessage, orElseString, ht]

/-- C7 at the failing input: a playlist download of `u` answered with a non-success
status and a body that is not JSON ends with the parser's failure text as error, a
different text for a different body, and not with a fixed generic text; the probe, in
the same situation, ends with its generic text. -/
theorem unparseable_error_body_shows_parser_text :
    (downloadVideo { AppState.initial with url := "u", downloadType := "playlist" }
      (unparseableErrorBody "Unexpected token < in JSON at position 0")).error
      = "Unexpected token < in JSON at position 0" ∧
    (downloadVideo { AppState.initial with url := "u", downloadType := "playlist" }
      (unparseableErrorBody "Unexpected end of JSON input")).error
      = "Unexpected end of JSON input" ∧
    (getVideoInfo { AppState.initial with url := "u", downloadType := "playlist" }
      (.rejects none)).error = "Failed to fetch video info" := by
  refine ⟨?_, ?_, by decide⟩
  · exact downloadVideo_json_rejects _ _ _ _ (by decide) rfl rfl rfl (by decide)
  · exact downloadVideo_json_rejects _ _ _ _ (by decide) rfl rfl rfl (by decide)

/-- C10 at the failing input: after a successful download of `u`, the identifier is
cleared and `downloadVideo` is invoked again; the validation failure sets the error and
leaves the success message of the earlier download in place, so both are non-empty. -/
theorem validation_failure_keeps_success_message :
    (run [.setUrl "u", .downloadVideo successfulDownload, .setUrl "",
        .downloadVideo successfulDownload]).error = "Please enter a YouTube URL" ∧
    (run [.setUrl "u", .downloadVideo successfulDownload, .setUrl "",
        .downloadVideo successfulDownload]).message = "Video downloaded to your device!" := by
  decide

/-- The handlers keep the two indicators exclusive on every path past the validation:
when `getVideoInfo` or `downloadVideo` is invoked with a non-empty identifier, the error
text or the message is empty when it has terminated. -/
theorem status_exclusive_past_validation (s : AppState) (outcome : AxiosOutcome)
    (env : DownloadEnv) (hurl : s.url ≠ "") :
    ((getVideoInfo s outcome).error = "" ∨ (getVideoInfo s outcome).message = "") ∧
    ((downloadVideo s env).error = "" ∨ (downloadVideo s env).message = "") := by
  constructor
  · right
    cases outcome <;>
      simp [getVideoInfo, getVideoInfoEffects, hurl, applyEffects, applyEffect]
  · cases hb : (branch s.url s.downloadType env).2 with
    | none => exact Or.inl (downloadVideo_completed s env hurl hb).1
    | some err => exact Or.inr (downloadVideo_thrown s env err hurl hb).2.1

end App
